import Mathlib

/-! Sampling / inference coordination core of `ei-zephyr-mic-kws-inference`

A shallow embedding of `src/inference/inferencing.cpp`: the circular sample
buffer filled by `ei_samples_callback`, the window extraction of
`ei_run_inference`, and the loop of `ei_inference_sm`.

Conventions of the embedding.

* Samples are only copied by this code, never computed with, so the sample
  type is a parameter `α` (in the C code: `float`).
* `EI_CLASSIFIER_DSP_INPUT_FRAME_SIZE` comes from a generated header, it is the
  parameter `C` of every operation.  The array `samples_circ_buff` is a list
  that is meant to have `C` entries.
* `samples_wr_index` is a C `int`.  As long as every store is inside the array
  it holds a value in `0 .. C`; it is a natural number.
* A store `samples_circ_buff[i] = x` with `i = C` is outside the array: the C
  program writes to the word behind the array, and which variable that
  changes, if any, depends on how the program was built.  Two readings are
  embedded.  `write_sample` and what is built on it follow a build in which
  that word is none of the four variables: the store changes none of the `C`
  slots and no variable (`List.set` leaves the list as it is).
  `write_sample_checked` and `ei_samples_callback_checked` give no result from
  the first such store on; a result they give is the result in every build.
  The indices that are stored to are listed by `ei_samples_callback_stores`.
* The classifier is a function from the window it is handed to its status code.
* Of `src/sensors/ei_microphone.cpp` the flag `is_sampling` and the functions
  that start, stop and sample are embedded.  The DMIC driver is outside the
  program: what its calls return is an argument of the function that makes
  them, and the calls made are listed in the outcome.
* The microphone turns a 16-bit sample `v` into the `float` `v / 32768`.  Every
  16-bit integer is a `float`, and dividing it by the power of two `32768` is
  exact, so this value is the rational number `v / 32768`; the samples that the
  microphone forwards are rational numbers.
-/

namespace Inferencing

/-- The enumeration `inference_state_t`. -/
inductive inference_state_t where
  | INFERENCE_STATE_RUNNING
  | INFERENCE_STATE_SAMPLING
  | INFERENCE_STATE_DATA_READY
  | INFERENCE_STATE_STOP
  deriving DecidableEq, Repr

open inference_state_t

/-- The file-level variables of `inferencing.cpp`. -/
structure Core (α : Type) where
  /-- The field `samples_per_inference`, a `uint16_t`. -/
  samples_per_inference : Nat
  /-- The array `samples_circ_buff`. -/
  samples_circ_buff : List α
  /-- The write cursor `samples_wr_index`. -/
  samples_wr_index : Nat
  /-- The variable `state`. -/
  state : inference_state_t
  deriving DecidableEq, Repr

variable {α : Type}

/-- The values of the variables when the program is loaded: a zeroed buffer of
`C` slots, cursor `0`, state `INFERENCE_STATE_SAMPLING`. -/
def Core.initial (C : Nat) (zero : α) : Core α :=
  { samples_per_inference := 0
    samples_circ_buff := List.replicate C zero
    samples_wr_index := 0
    state := INFERENCE_STATE_SAMPLING }

/-- One pass through the body of the `for` loop of `ei_samples_callback`, for the
sample `x`; the Boolean is the local variable `ret`.  When the cursor is `C`
the store is outside the array and is taken to change no variable; see
`write_sample_checked` for the reading that stops there. -/
def write_sample (C : Nat) (acc : Bool × Core α) (x : α) : Bool × Core α :=
  let ret := acc.1
  let s := acc.2
  -- samples_circ_buff[samples_wr_index++] = sample[i];
  let buff := s.samples_circ_buff.set s.samples_wr_index x
  let wr := s.samples_wr_index + 1
  -- if (samples_wr_index > EI_CLASSIFIER_DSP_INPUT_FRAME_SIZE) samples_wr_index = 0;
  let wr := if wr > C then 0 else wr
  -- if (samples_wr_index >= samples_per_inference) { state = DATA_READY; ret = true; }
  if wr ≥ s.samples_per_inference then
    (true, { s with samples_circ_buff := buff, samples_wr_index := wr,
                    state := INFERENCE_STATE_DATA_READY })
  else
    (ret, { s with samples_circ_buff := buff, samples_wr_index := wr })

/-- The state of the `for` loop of `ei_samples_callback` after the samples `xs`
have been processed, starting with `ret = false`. -/
def samples_loop (C : Nat) (s : Core α) (xs : List α) : Bool × Core α :=
  xs.foldl (write_sample C) (false, s)

/-- The function `ei_samples_callback`, called with the samples `xs` (the byte
count `raw_sample_size` is `4 * xs.length`): the value returned and the
variables afterwards. -/
def ei_samples_callback (C : Nat) (s : Core α) (xs : List α) : Bool × Core α :=
  -- return false;
  (false, (samples_loop C s xs).2)

/-- The variables after `ei_samples_callback` has run on the batch `xs`. -/
def ingest (C : Nat) (s : Core α) (xs : List α) : Core α :=
  (ei_samples_callback C s xs).2

/-- The variables after a sequence of calls of `ei_samples_callback`, one for
each batch of `bs`, in order. -/
def ingest_all (C : Nat) (s : Core α) (bs : List (List α)) : Core α :=
  bs.foldl (ingest C) s

/-- The indices `samples_wr_index` used by the stores
`samples_circ_buff[samples_wr_index++] = sample[i]` of one call of
`ei_samples_callback` on `xs`, in order. -/
def ei_samples_callback_stores (C : Nat) : Core α → List α → List Nat
  | _, [] => []
  | s, x :: xs =>
    s.samples_wr_index :: ei_samples_callback_stores C (write_sample C (false, s) x).2 xs

/-- One pass through the body of the `for` loop of `ei_samples_callback` as far
as the C program fixes it: no result when the store
`samples_circ_buff[samples_wr_index]` is outside the array of `C` slots. -/
def write_sample_checked (C : Nat) (acc : Bool × Core α) (x : α) : Option (Bool × Core α) :=
  if acc.2.samples_wr_index < C then some (write_sample C acc x) else none

/-- The `for` loop of `ei_samples_callback` on the samples `xs`, as far as the C
program fixes it. -/
def samples_loop_checked (C : Nat) : Bool × Core α → List α → Option (Bool × Core α)
  | acc, [] => some acc
  | acc, x :: xs =>
    match write_sample_checked C acc x with
    | none => none
    | some acc1 => samples_loop_checked C acc1 xs

/-- Modelled from the spec: the function `numpy::roll` of the Edge Impulse SDK
is called by `ei_run_inference` and is not among the sources.  As in numpy, the
entries of the `input_array_size` slots move `shift` places to the right,
circularly (to the left when `shift` is negative). -/
def roll (input_array : List α) (input_array_size : Nat) (shift : Int) : List α :=
  let k := (shift % (input_array_size : Int)).toNat
  input_array.drop (input_array_size - k) ++ input_array.take (input_array_size - k)

/-- What one call of `ei_run_inference` does. -/
structure inference_outcome (α : Type) where
  /-- The value returned. -/
  ret : Bool
  /-- The signal that `run_classifier` was called with. -/
  window : List α
  /-- The variables afterwards. -/
  core : Core α

/-- The function `ei_run_inference`; `run_classifier` gives the status code of
the classifier for the window it is handed. -/
def ei_run_inference (run_classifier : List α → Int) (C : Nat) (s : Core α) :
    inference_outcome α :=
  -- numpy::roll(samples_circ_buff, EI_CLASSIFIER_DSP_INPUT_FRAME_SIZE, (-samples_wr_index));
  let buff := roll s.samples_circ_buff C (-(s.samples_wr_index : Int))
  -- samples_wr_index = 0;
  let s1 : Core α := { s with samples_circ_buff := buff, samples_wr_index := 0 }
  -- EI_IMPULSE_ERROR res = run_classifier(&features_signal, &result, false);
  let res := run_classifier buff
  { ret := if res ≠ 0 then false else true, window := buff, core := s1 }

/-- The function `ei_start_impulse`, for the configured values of
`EI_CLASSIFIER_RAW_SAMPLE_COUNT` and `EI_CLASSIFIER_RAW_SAMPLES_PER_FRAME`; the
product is stored in a `uint16_t`. -/
def ei_start_impulse (raw_sample_count raw_samples_per_frame : Nat) (s : Core α) :
    Bool × Core α :=
  (true, { s with samples_wr_index := 0,
                  samples_per_inference := (raw_sample_count * raw_samples_per_frame) % 2 ^ 16 })

/-- The function `ei_stop_impulse`. -/
def ei_stop_impulse (s : Core α) : Bool × Core α :=
  (true, { s with state := INFERENCE_STATE_STOP })

/-- What is observed of the loop of `ei_inference_sm`: a pass through the
`switch` that starts in the given state, or a call of `run_classifier`. -/
inductive sm_event where
  | pass (st : inference_state_t)
  | classify
  deriving DecidableEq, Repr

/-- An execution of the loop of `ei_inference_sm`: the variables, and what has
been observed so far, in order. -/
structure Machine (α : Type) where
  core : Core α
  log : List sm_event

/-- The statements of `ei_inference_sm` before the loop. -/
def ei_inference_sm_enter (raw_sample_count raw_samples_per_frame : Nat) (s : Core α) :
    Machine α :=
  -- ei_start_impulse();
  let s1 := (ei_start_impulse raw_sample_count raw_samples_per_frame s).2
  -- state = INFERENCE_STATE_SAMPLING;
  { core := { s1 with state := INFERENCE_STATE_SAMPLING }, log := [] }

/-- One pass through the `switch` of `ei_inference_sm`.  The batch `produced` is
what the producer hands to `ei_samples_callback` while the sampling case reads
data and sleeps; it is not used in the other cases. -/
def ei_inference_sm_pass (run_classifier : List α → Int) (C : Nat) (m : Machine α)
    (produced : List α) : Machine α :=
  let seen := m.log ++ [sm_event.pass m.core.state]
  match m.core.state with
  | INFERENCE_STATE_SAMPLING =>
    { core := ingest C m.core produced, log := seen }
  | INFERENCE_STATE_DATA_READY =>
    -- state = INFERENCE_STATE_RUNNING;
    { core := { m.core with state := INFERENCE_STATE_RUNNING }, log := seen }
  | INFERENCE_STATE_RUNNING =>
    -- if (ei_run_inference() == false) { ... }  state = INFERENCE_STATE_SAMPLING;
    let r := ei_run_inference run_classifier C m.core
    { core := { r.core with state := INFERENCE_STATE_SAMPLING },
      log := seen ++ [sm_event.classify] }
  | INFERENCE_STATE_STOP =>
    { core := m.core, log := seen }

/-- The loop of `ei_inference_sm` run for at most `produced.length` passes, the
producer handing over the batches of `produced`, one in each pass.  The loop is
left when the state is `INFERENCE_STATE_STOP`. -/
def ei_inference_sm_loop (run_classifier : List α → Int) (C : Nat) :
    Machine α → List (List α) → Machine α
  | m, [] => m
  | m, b :: bs =>
    if m.core.state = INFERENCE_STATE_STOP then m
    else ei_inference_sm_loop run_classifier C (ei_inference_sm_pass run_classifier C m b) bs

/-- The samples `0, 1, ..., n - 1`. -/
def labelled (n : Nat) : List Int := (List.range n).map fun i => (i : Int)

/-- The variables after `ei_start_impulse` on a zeroed buffer of `C` slots, with
a window length of `N` samples of one value each. -/
def started (C N : Nat) : Core Int := (ei_start_impulse N 1 (Core.initial C 0)).2

/-! ## The microphone, `src/sensors/ei_microphone.cpp` -/

/-- The constant `AUDIO_SAMPLE_BIT`. -/
def AUDIO_SAMPLE_BIT : Nat := 16

/-- The constant `BYTES_PER_SAMPLE`. -/
def BYTES_PER_SAMPLE : Nat := AUDIO_SAMPLE_BIT / 8

/-- The constant `PCM_BUF_SIZE_MS`. -/
def PCM_BUF_SIZE_MS : Nat := 100

/-- The constant `BLOCK_SIZE`, for the value `AUDIO_FREQ` of the generated
constant `EI_CLASSIFIER_FREQUENCY`. -/
def BLOCK_SIZE (AUDIO_FREQ : Nat) : Nat :=
  (AUDIO_FREQ * PCM_BUF_SIZE_MS * BYTES_PER_SAMPLE) / 1000

/-- The calls of the DMIC driver. -/
inductive dmic_call where
  | configure
  | trigger_start
  | trigger_stop
  | read
  deriving DecidableEq, Repr

/-- What a call of `ei_microphone_start` or `ei_microphone_stop` does: the value
returned, the flag `is_sampling` afterwards, and the driver calls made. -/
structure control_outcome where
  ret : Bool
  is_sampling : Bool
  calls : List dmic_call
  deriving DecidableEq, Repr

/-- The function `ei_microphone_start`; `configure_ret` and `trigger_ret` are
what `dmic_configure` and `dmic_trigger` return when they are called. -/
def ei_microphone_start (is_sampling : Bool) (configure_ret trigger_ret : Int) :
    control_outcome :=
  -- if (is_sampling) return true;
  if is_sampling then { ret := true, is_sampling := is_sampling, calls := [] }
  -- int ret = dmic_configure(dmic_dev, &cfg);  if (ret < 0) return false;
  else if configure_ret < 0 then
    { ret := false, is_sampling := is_sampling, calls := [dmic_call.configure] }
  -- ret = dmic_trigger(dmic_dev, DMIC_TRIGGER_START);  if (ret < 0) return false;
  else if trigger_ret < 0 then
    { ret := false, is_sampling := is_sampling,
      calls := [dmic_call.configure, dmic_call.trigger_start] }
  -- is_sampling = true;  return true;
  else
    { ret := true, is_sampling := true,
      calls := [dmic_call.configure, dmic_call.trigger_start] }

/-- The function `ei_microphone_stop`; `trigger_ret` is what `dmic_trigger`
returns when it is called. -/
def ei_microphone_stop (is_sampling : Bool) (trigger_ret : Int) : control_outcome :=
  -- if (!is_sampling) return true;
  if !is_sampling then { ret := true, is_sampling := is_sampling, calls := [] }
  -- is_sampling = false;  int ret = dmic_trigger(dmic_dev, DMIC_TRIGGER_STOP);
  -- if (ret < 0) return false;
  else if trigger_ret < 0 then
    { ret := false, is_sampling := false, calls := [dmic_call.trigger_stop] }
  else
    { ret := true, is_sampling := false, calls := [dmic_call.trigger_stop] }

/-- The function `ei_microphone_is_sampling`. -/
def ei_microphone_is_sampling (is_sampling : Bool) : Bool := is_sampling

/-- What `dmic_read` gives: the value returned, the block it points `buffer` to
(`none` for `NULL`, else the 16-bit samples in the block) and the byte count
`size`. -/
structure dmic_read_result where
  ret : Int
  buffer : Option (List Int)
  size : Nat
  deriving DecidableEq, Repr

/-- A call of `ei_samples_callback` made by the microphone: the byte count
passed and the samples that the callback reads, which are the first
`raw_sample_size / sizeof(float)` entries of `float_buffer`. -/
structure callback_call where
  raw_sample_size : Nat
  samples : List Rat
  deriving DecidableEq, Repr

/-- What a call of `ei_microphone_sample` does: the value returned, the call of
`ei_samples_callback` if one is made, and the variables of `inferencing.cpp`
afterwards. -/
structure sample_outcome where
  ret : Bool
  forwarded : Option callback_call
  core : Core Rat

/-- The conversion `(float)samples[i] / 32768.0f` of a 16-bit sample. -/
def pcm_to_float (v : Int) : Rat := (v : Rat) / 32768

/-- The function `ei_microphone_sample`; `rd` is what `dmic_read` gives when it
is called, and `s` holds the variables of `inferencing.cpp`. -/
def ei_microphone_sample (AUDIO_FREQ C : Nat) (is_sampling : Bool) (rd : dmic_read_result)
    (s : Core Rat) : sample_outcome :=
  -- if (!is_sampling) return false;
  if !is_sampling then { ret := false, forwarded := none, core := s }
  -- int ret = dmic_read(...);  if (ret < 0) { ... return false; }
  else if rd.ret < 0 then { ret := false, forwarded := none, core := s }
  -- if (size == 0 || buffer == NULL) return false;
  else if rd.size = 0 then { ret := false, forwarded := none, core := s }
  else
    match rd.buffer with
    | none => { ret := false, forwarded := none, core := s }
    | some samples =>
      -- size_t sample_count = size / sizeof(int16_t);
      let sample_count := rd.size / 2
      -- const size_t max_samples = BLOCK_SIZE / sizeof(int16_t);
      let max_samples := BLOCK_SIZE AUDIO_FREQ / 2
      let samples_to_process := if sample_count < max_samples then sample_count else max_samples
      -- float_buffer[i] = (float)samples[i] / 32768.0f;  for i < samples_to_process
      let float_buffer : List Rat := (samples.take samples_to_process).map pcm_to_float
      -- ei_samples_callback(float_buffer, samples_to_process * sizeof(float));
      let raw_sample_size := (samples_to_process * 4) % 2 ^ 32
      let batch := float_buffer.take (raw_sample_size / 4)
      -- return true;
      { ret := true,
        forwarded := some { raw_sample_size := raw_sample_size, samples := batch },
        core := (ei_samples_callback C s batch).2 }

/-! ## Auxiliary facts about ingestion -/

/-- The variables after one sample, whatever the local flag was. -/
def step (C : Nat) (s : Core α) (x : α) : Core α := (write_sample C (false, s) x).2

theorem write_sample_snd (C : Nat) (b : Bool) (s : Core α) (x : α) :
    (write_sample C (b, s) x).2 = step C s x := by
  unfold step write_sample
  dsimp only
  split_ifs <;> rfl

theorem foldl_write_sample_snd (C : Nat) (xs : List α) :
    ∀ acc : Bool × Core α, (xs.foldl (write_sample C) acc).2 = xs.foldl (step C) acc.2 := by
  induction xs with
  | nil => intro acc; rfl
  | cons x xs ih =>
    intro acc
    rw [List.foldl_cons, ih, List.foldl_cons]
    obtain ⟨b, s⟩ := acc
    rw [write_sample_snd]

theorem ingest_eq_foldl (C : Nat) (s : Core α) (xs : List α) :
    ingest C s xs = xs.foldl (step C) s := by
  unfold ingest ei_samples_callback samples_loop
  exact foldl_write_sample_snd C xs (false, s)

theorem ingest_nil (C : Nat) (s : Core α) : ingest C s [] = s := by
  rw [ingest_eq_foldl]; rfl

theorem ingest_cons (C : Nat) (s : Core α) (x : α) (xs : List α) :
    ingest C s (x :: xs) = ingest C (step C s x) xs := by
  rw [ingest_eq_foldl, ingest_eq_foldl]; rfl

theorem ingest_append (C : Nat) (s : Core α) (xs ys : List α) :
    ingest C s (xs ++ ys) = ingest C (ingest C s xs) ys := by
  rw [ingest_eq_foldl, ingest_eq_foldl, ingest_eq_foldl, List.foldl_append]

theorem ingest_all_eq_join (C : Nat) (bs : List (List α)) :
    ∀ s : Core α, ingest_all C s bs = ingest C s bs.flatten := by
  induction bs with
  | nil => intro s; rw [List.flatten_nil, ingest_nil]; rfl
  | cons b bs ih =>
    intro s
    rw [List.flatten_cons, ingest_append, ← ih]
    rfl

theorem step_spi (C : Nat) (s : Core α) (x : α) :
    (step C s x).samples_per_inference = s.samples_per_inference := by
  unfold step write_sample
  dsimp only
  split_ifs <;> rfl

theorem step_wr (C : Nat) (s : Core α) (x : α) :
    (step C s x).samples_wr_index
      = if s.samples_wr_index + 1 > C then 0 else s.samples_wr_index + 1 := by
  unfold step write_sample
  dsimp only
  split_ifs <;> rfl

theorem step_buff (C : Nat) (s : Core α) (x : α) :
    (step C s x).samples_circ_buff = s.samples_circ_buff.set s.samples_wr_index x := by
  unfold step write_sample
  dsimp only
  split_ifs <;> rfl

theorem step_state (C : Nat) (s : Core α) (x : α) :
    (step C s x).state
      = if (step C s x).samples_wr_index ≥ s.samples_per_inference
        then INFERENCE_STATE_DATA_READY else s.state := by
  unfold step write_sample
  dsimp only
  split_ifs <;> simp_all

theorem ingest_spi (C : Nat) (xs : List α) :
    ∀ s : Core α, (ingest C s xs).samples_per_inference = s.samples_per_inference := by
  induction xs with
  | nil => intro s; rw [ingest_nil]
  | cons x xs ih => intro s; rw [ingest_cons, ih, step_spi]

theorem ingest_buff_length (C : Nat) (xs : List α) :
    ∀ s : Core α, (ingest C s xs).samples_circ_buff.length = s.samples_circ_buff.length := by
  induction xs with
  | nil => intro s; rw [ingest_nil]
  | cons x xs ih => intro s; rw [ingest_cons, ih, step_buff, List.length_set]

/-- The cursor counts the samples modulo `C + 1`. -/
theorem ingest_wr (C : Nat) (xs : List α) :
    ∀ s : Core α, s.samples_wr_index ≤ C →
      (ingest C s xs).samples_wr_index = (s.samples_wr_index + xs.length) % (C + 1) := by
  induction xs with
  | nil =>
    intro s h
    rw [ingest_nil, List.length_nil, Nat.add_zero, Nat.mod_eq_of_lt (by omega)]
  | cons x xs ih =>
    intro s h
    have hw := step_wr C s x
    by_cases hc : s.samples_wr_index + 1 > C
    · rw [if_pos hc] at hw
      have he : s.samples_wr_index = C := by omega
      rw [ingest_cons, ih _ (by omega), hw, List.length_cons, he, Nat.zero_add,
        show C + (xs.length + 1) = xs.length + (C + 1) by omega, Nat.add_mod_right]
    · rw [if_neg hc] at hw
      rw [ingest_cons, ih _ (by omega), hw, List.length_cons]
      congr 1; omega

/-- While the batch fits below the end of the array, the cursor advances by
the number of samples. -/
theorem ingest_wr_linear (C : Nat) (s : Core α) (xs : List α)
    (h : s.samples_wr_index + xs.length ≤ C) :
    (ingest C s xs).samples_wr_index = s.samples_wr_index + xs.length := by
  rw [ingest_wr C xs s (by omega), Nat.mod_eq_of_lt (by omega)]

/-- While the batch fits below the end of the array, it is stored in order
from the cursor on and the other slots keep their contents. -/
theorem ingest_buff_linear (C : Nat) (xs : List α) :
    ∀ s : Core α, s.samples_wr_index + xs.length ≤ C →
      s.samples_wr_index + xs.length ≤ s.samples_circ_buff.length →
      (ingest C s xs).samples_circ_buff
        = s.samples_circ_buff.take s.samples_wr_index ++ xs
            ++ s.samples_circ_buff.drop (s.samples_wr_index + xs.length) := by
  induction xs with
  | nil =>
    intro s _ _
    rw [ingest_nil, List.append_nil, List.length_nil, Nat.add_zero, List.take_append_drop]
  | cons x xs ih =>
    intro s hC hL
    rw [List.length_cons] at hC hL
    have hw : (step C s x).samples_wr_index = s.samples_wr_index + 1 := by
      rw [step_wr, if_neg (by omega)]
    have hlt : s.samples_wr_index < s.samples_circ_buff.length := by omega
    rw [ingest_cons, ih _ (by rw [hw]; omega) (by rw [hw, step_buff, List.length_set]; omega),
      hw, step_buff, List.length_cons]
    rw [List.set_eq_take_append_cons_drop, if_pos hlt]
    have e1 : (s.samples_circ_buff.take s.samples_wr_index
        ++ x :: s.samples_circ_buff.drop (s.samples_wr_index + 1)).take (s.samples_wr_index + 1)
        = s.samples_circ_buff.take s.samples_wr_index ++ [x] := by
      rw [List.take_append_eq_append_take, List.length_take, Nat.min_eq_left (by omega),
        List.take_of_length_le (by rw [List.length_take]; omega),
        show s.samples_wr_index + 1 - s.samples_wr_index = 1 by omega]
      rfl
    have e2 : (s.samples_circ_buff.take s.samples_wr_index
        ++ x :: s.samples_circ_buff.drop (s.samples_wr_index + 1)).drop
          (s.samples_wr_index + 1 + xs.length)
        = s.samples_circ_buff.drop (s.samples_wr_index + (xs.length + 1)) := by
      rw [List.drop_append_eq_append_drop, List.length_take, Nat.min_eq_left (by omega),
        List.drop_of_length_le (by rw [List.length_take]; omega),
        show s.samples_wr_index + 1 + xs.length - s.samples_wr_index = xs.length + 1 by omega,
        List.nil_append, List.drop_succ_cons, List.drop_drop]
      congr 1; omega
    rw [e1, e2]
    simp

/-- Ingestion never takes the state out of `INFERENCE_STATE_DATA_READY`. -/
theorem ingest_state_ready (C : Nat) (xs : List α) :
    ∀ s : Core α, s.state = INFERENCE_STATE_DATA_READY →
      (ingest C s xs).state = INFERENCE_STATE_DATA_READY := by
  induction xs with
  | nil => intro s h; rw [ingest_nil]; exact h
  | cons x xs ih =>
    intro s h
    rw [ingest_cons]
    apply ih
    rw [step_state]
    split
    · rfl
    · exact h

/-- Below the threshold the state is left alone. -/
theorem ingest_state_below (C : Nat) (xs : List α) :
    ∀ s : Core α, s.samples_wr_index + xs.length ≤ C →
      s.samples_wr_index + xs.length < s.samples_per_inference →
      (ingest C s xs).state = s.state := by
  induction xs with
  | nil => intro s _ _; rw [ingest_nil]
  | cons x xs ih =>
    intro s hC hN
    rw [List.length_cons] at hC hN
    have hw : (step C s x).samples_wr_index = s.samples_wr_index + 1 := by
      rw [step_wr, if_neg (by omega)]
    rw [ingest_cons, ih _ (by rw [hw]; omega) (by rw [hw, step_spi]; omega), step_state, hw,
      if_neg (by omega)]

/-- The write that brings the cursor to the threshold makes the data ready. -/
theorem ingest_state_reach (C : Nat) (s : Core α) (xs : List α)
    (hx : xs ≠ []) (hC : s.samples_wr_index + xs.length ≤ C)
    (hN : s.samples_per_inference ≤ s.samples_wr_index + xs.length) :
    (ingest C s xs).state = INFERENCE_STATE_DATA_READY := by
  obtain ⟨ys, y, rfl⟩ : ∃ ys y, xs = ys ++ [y] :=
    ⟨xs.dropLast, xs.getLast hx, (List.dropLast_append_getLast hx).symm⟩
  rw [List.length_append, List.length_singleton] at hC hN
  rw [ingest_append, ingest_cons, ingest_nil, step_state, step_wr,
    ingest_wr_linear C s ys (by omega), ingest_spi,
    if_neg (show ¬ (s.samples_wr_index + ys.length + 1 > C) by omega), if_pos (by omega)]

/-- For a cursor in `0 .. C`, the roll of `ei_run_inference` is the rotation to
the left by the cursor. -/
theorem roll_neg_cursor (buff : List α) (C w : Nat) (hlen : buff.length = C) (hw : w ≤ C) :
    roll buff C (-(w : Int)) = buff.rotate w := by
  unfold roll
  dsimp only
  rcases Nat.eq_zero_or_pos w with h0 | hpos
  · subst h0
    simp [← hlen]
  · rcases Nat.lt_or_ge w C with hlt | hge
    · have hk : ((-(w : Int)) % (C : Int)).toNat = C - w := by
        have : (-(w : Int)) % (C : Int) = ((C - w : Nat) : Int) := by
          have h := Int.add_emod_self (a := -(w : Int)) (b := (C : Int))
          rw [← h, Int.emod_eq_of_lt (by omega) (by omega)]
          omega
        rw [this, Int.toNat_ofNat]
      rw [hk, show C - (C - w) = w by omega,
        List.rotate_eq_drop_append_take (by omega)]
    · have he : w = C := by omega
      subst he
      have hk : ((-(w : Int)) % (w : Int)).toNat = 0 := by simp
      rw [hk, ← hlen, List.rotate_length]
      simp

theorem roll_length (buff : List α) (C : Nat) (shift : Int) :
    (roll buff C shift).length = buff.length := by
  unfold roll
  dsimp only
  rw [List.length_append, List.length_drop, List.length_take]
  omega

/-- The cursor after one sample, as a remainder. -/
theorem step_wr_mod (C : Nat) (s : Core α) (x : α) (hw : s.samples_wr_index ≤ C) :
    (step C s x).samples_wr_index = (s.samples_wr_index + 1) % (C + 1) := by
  rw [step_wr]
  by_cases hc : s.samples_wr_index + 1 > C
  · have he : s.samples_wr_index = C := by omega
    rw [if_pos hc, he, Nat.mod_self]
  · rw [if_neg hc, Nat.mod_eq_of_lt (by omega)]

/-- Ingestion changes the state to `INFERENCE_STATE_DATA_READY` or not at all. -/
theorem ingest_state_cases (C : Nat) (xs : List α) :
    ∀ s : Core α, (ingest C s xs).state = INFERENCE_STATE_DATA_READY
      ∨ (ingest C s xs).state = s.state := by
  induction xs with
  | nil => intro s; right; rw [ingest_nil]
  | cons x xs ih =>
    intro s
    rw [ingest_cons]
    rcases ih (step C s x) with h | h
    · left; exact h
    · rw [h, step_state]
      split
      · left; rfl
      · right; rfl

/-- Ingestion never sets the state to `INFERENCE_STATE_STOP`. -/
theorem ingest_state_ne_stop (C : Nat) (s : Core α) (xs : List α)
    (h : s.state ≠ INFERENCE_STATE_STOP) : (ingest C s xs).state ≠ INFERENCE_STATE_STOP := by
  rcases ingest_state_cases C xs s with h1 | h1
  · rw [h1]; decide
  · rw [h1]; exact h

/-- When the state is not yet `INFERENCE_STATE_DATA_READY`, a batch leaves it
as it is exactly when no write of the batch leaves the cursor at or above
`samples_per_inference`. -/
theorem ingest_state_kept_iff (C : Nat) (xs : List α) :
    ∀ s : Core α, s.samples_wr_index ≤ C → s.state ≠ INFERENCE_STATE_DATA_READY →
      ((ingest C s xs).state = s.state ↔
        ∀ j, 1 ≤ j → j ≤ xs.length →
          (s.samples_wr_index + j) % (C + 1) < s.samples_per_inference) := by
  induction xs with
  | nil =>
    intro s _ _
    rw [ingest_nil, List.length_nil]
    constructor
    · intro _ j h1 h0; omega
    · intro _; rfl
  | cons x xs ih =>
    intro s hw hst
    have hw1 := step_wr_mod C s x hw
    have hle : (step C s x).samples_wr_index ≤ C := by
      rw [hw1]
      have := Nat.mod_lt (s.samples_wr_index + 1) (show 0 < C + 1 by omega)
      omega
    have hs1 := step_state C s x
    rw [ingest_cons, List.length_cons]
    by_cases hge : (step C s x).samples_wr_index ≥ s.samples_per_inference
    · rw [if_pos hge] at hs1
      rw [ingest_state_ready C xs _ hs1]
      constructor
      · intro h
        exact absurd h.symm hst
      · intro h
        have := h 1 (le_refl 1) (by omega)
        rw [← hw1] at this
        omega
    · rw [if_neg hge] at hs1
      have hih := ih (step C s x) hle (by rw [hs1]; exact hst)
      rw [hs1, step_spi, hw1] at hih
      rw [hih]
      constructor
      · intro h j hj1 hj2
        rcases Nat.eq_or_lt_of_le hj1 with he | hlt
        · rw [← he, ← hw1]; omega
        · have := h (j - 1) (by omega) (by omega)
          rw [Nat.mod_add_mod, show s.samples_wr_index + 1 + (j - 1) = s.samples_wr_index + j
            by omega] at this
          exact this
      · intro h j hj1 hj2
        have := h (j + 1) (by omega) (by omega)
        rw [Nat.mod_add_mod, show s.samples_wr_index + 1 + j = s.samples_wr_index + (j + 1)
          by omega]
        exact this

/-! ## Auxiliary facts about the loop of `ei_inference_sm` -/

/-- A pass of the loop that does not start in `INFERENCE_STATE_STOP` does not
end in it. -/
theorem pass_state_ne_stop (run_classifier : List α → Int) (C : Nat) (m : Machine α)
    (produced : List α) (h : m.core.state ≠ INFERENCE_STATE_STOP) :
    (ei_inference_sm_pass run_classifier C m produced).core.state ≠ INFERENCE_STATE_STOP := by
  unfold ei_inference_sm_pass
  dsimp only
  split
  · next hs => exact ingest_state_ne_stop C m.core produced (by rw [hs]; decide)
  · simp
  · simp
  · next hs => exact absurd hs h

/-- The loop, started outside `INFERENCE_STATE_STOP`, makes one pass for every
batch and is never in `INFERENCE_STATE_STOP`. -/
theorem loop_state_ne_stop (run_classifier : List α → Int) (C : Nat) (bs : List (List α)) :
    ∀ m : Machine α, m.core.state ≠ INFERENCE_STATE_STOP →
      (ei_inference_sm_loop run_classifier C m bs).core.state ≠ INFERENCE_STATE_STOP ∧
      (ei_inference_sm_loop run_classifier C m bs).log.length ≥ m.log.length + bs.length := by
  induction bs with
  | nil =>
    intro m h
    rw [ei_inference_sm_loop]
    exact ⟨h, by simp⟩
  | cons b bs ih =>
    intro m h
    rw [ei_inference_sm_loop, if_neg h]
    obtain ⟨h1, h2⟩ := ih _ (pass_state_ne_stop run_classifier C m b h)
    refine ⟨h1, ?_⟩
    have hlog : (ei_inference_sm_pass run_classifier C m b).log.length ≥ m.log.length + 1 := by
      unfold ei_inference_sm_pass
      dsimp only
      split <;> simp
    rw [List.length_cons]
    omega

/-- A result of the checked loop is the result of the loop. -/
theorem samples_loop_checked_eq (C : Nat) (xs : List α) :
    ∀ acc r : Bool × Core α, samples_loop_checked C acc xs = some r →
      r = xs.foldl (write_sample C) acc := by
  induction xs with
  | nil =>
    intro acc r h
    rw [samples_loop_checked] at h
    exact (Option.some.inj h).symm
  | cons x xs ih =>
    intro acc r h
    rw [samples_loop_checked] at h
    unfold write_sample_checked at h
    split_ifs at h with hlt
    exact ih _ r h

/-- A batch that fits below the end of the array has a checked result. -/
theorem samples_loop_checked_of_fit (C : Nat) (xs : List α) :
    ∀ acc : Bool × Core α, acc.2.samples_wr_index + xs.length ≤ C →
      samples_loop_checked C acc xs = some (xs.foldl (write_sample C) acc) := by
  induction xs with
  | nil => intro acc _; rfl
  | cons x xs ih =>
    intro acc h
    rw [List.length_cons] at h
    rw [samples_loop_checked]
    unfold write_sample_checked
    rw [if_pos (by omega)]
    have hw : (write_sample C acc x).2.samples_wr_index = acc.2.samples_wr_index + 1 := by
      obtain ⟨b, s⟩ := acc
      rw [write_sample_snd, step_wr, if_neg (by dsimp only at h ⊢; omega)]
    exact ih _ (by rw [hw]; omega)

/-! ## The claims -/

/-- C1 (wraparound): with `C = 20` and `N = 10`, one batch of the 25 samples
`0 .. 24` from cursor `0` leaves the cursor at `4`, and the window handed to
the classifier is `4 .. 19, 21 .. 24`: it starts one sample too early and
sample `20` is missing, so it is not the most recent 20 samples `5 .. 24`. -/
theorem wraparound_window_of_25 :
    (ei_run_inference (fun _ => 0) 20 (ingest 20 (started 20 10) (labelled 25))).window
        = [4, 5, 6, 7, 8, 9, 10, 11, 12, 13, 14, 15, 16, 17, 18, 19, 21, 22, 23, 24] ∧
      (ei_run_inference (fun _ => 0) 20 (ingest 20 (started 20 10) (labelled 25))).window
        ≠ (labelled 25).drop 5 := by
  decide

/-- C2 (readiness threshold): for `1 ≤ N ≤ C`, from cursor `0` and state
sampling, after any complete batches `bs` and any part `ys` of the batch being
processed, the state is data-ready exactly when the number of samples written
so far is at least `N`. -/
theorem readiness_threshold (C N : Nat) (h1 : 1 ≤ N) (hNC : N ≤ C) (s : Core α)
    (hwr : s.samples_wr_index = 0) (hst : s.state = INFERENCE_STATE_SAMPLING)
    (hspi : s.samples_per_inference = N) (bs : List (List α)) (ys : List α) :
    (samples_loop C (ingest_all C s bs) ys).2.state = INFERENCE_STATE_DATA_READY
      ↔ N ≤ bs.flatten.length + ys.length := by
  have e : (samples_loop C (ingest_all C s bs) ys).2 = ingest C s (bs.flatten ++ ys) := by
    rw [ingest_append, ← ingest_all_eq_join]
    rfl
  rw [e, ← List.length_append]
  generalize bs.flatten ++ ys = xs
  constructor
  · intro hready
    by_contra hlt
    rw [ingest_state_below C xs s (by omega) (by omega), hst] at hready
    exact absurd hready (by decide)
  · intro hge
    have hsplit : xs = xs.take N ++ xs.drop N := (List.take_append_drop N xs).symm
    have hlen : (xs.take N).length = N := by
      rw [List.length_take]; omega
    rw [hsplit, ingest_append]
    apply ingest_state_ready
    apply ingest_state_reach
    · intro hnil
      rw [hnil, List.length_nil] at hlen
      omega
    · omega
    · omega

/-- Witness for C2: `C = 20`, `N = 10`, batches of 4 and 5 samples and the first
sample of a third batch make the 10th write. -/
theorem readiness_threshold_witness :
    (1 ≤ 10 ∧ 10 ≤ 20) ∧
    ((samples_loop 20 (ingest_all 20 (started 20 10) [labelled 4, labelled 5])
        (labelled 1)).2.state = INFERENCE_STATE_DATA_READY
      ↔ 10 ≤ [labelled 4, labelled 5].flatten.length + (labelled 1).length) :=
  ⟨by decide, readiness_threshold 20 10 (by decide) (by decide) (started 20 10) rfl rfl rfl
    [labelled 4, labelled 5] (labelled 1)⟩

/-- C3 (window extraction): when the array has `C` slots and the cursor `w` is
any value in `0 .. C`, the window that `ei_run_inference` hands to the
classifier has `C` entries and its entry `i` is the entry `(w + i) mod C` of
the buffer; with cursor `0` the window is the buffer itself. -/
theorem window_is_rotation (run_classifier : List α → Int) (C : Nat) (s : Core α)
    (hlen : s.samples_circ_buff.length = C) (hwr : s.samples_wr_index ≤ C) :
    (ei_run_inference run_classifier C s).window.length = C ∧
    (∀ i, i < C →
      (ei_run_inference run_classifier C s).window[i]?
        = s.samples_circ_buff[(s.samples_wr_index + i) % C]?) ∧
    (s.samples_wr_index = 0 →
      (ei_run_inference run_classifier C s).window = s.samples_circ_buff) := by
  have hwin : (ei_run_inference run_classifier C s).window
      = s.samples_circ_buff.rotate s.samples_wr_index :=
    roll_neg_cursor _ C _ hlen hwr
  refine ⟨?_, ?_, ?_⟩
  · rw [hwin, List.length_rotate, hlen]
  · intro i hi
    rw [hwin, List.getElem?_rotate (by omega), hlen, Nat.add_comm]
  · intro h0
    rw [hwin, h0, List.rotate_zero]

/-- Witness for C3: `C = 4`, the buffer `10, 11, 12, 13` and the cursor `3`; the
window is `13, 10, 11, 12`. -/
theorem window_is_rotation_witness :
    (ei_run_inference (fun _ => 0) 4
        { samples_per_inference := 2, samples_circ_buff := ([10, 11, 12, 13] : List Int),
          samples_wr_index := 3, state := INFERENCE_STATE_RUNNING }).window
      = [13, 10, 11, 12] ∧
    (∀ i, i < 4 →
      (ei_run_inference (fun _ => 0) 4
        { samples_per_inference := 2, samples_circ_buff := ([10, 11, 12, 13] : List Int),
          samples_wr_index := 3, state := INFERENCE_STATE_RUNNING }).window[i]?
        = ([10, 11, 12, 13] : List Int)[(3 + i) % 4]?) :=
  ⟨by decide,
    (window_is_rotation (fun _ => 0) 4
      { samples_per_inference := 2, samples_circ_buff := ([10, 11, 12, 13] : List Int),
        samples_wr_index := 3, state := INFERENCE_STATE_RUNNING } (by decide) (by decide)).2.1⟩

/-- C4 as stated fails: with `C = 2` and `N = 1`, the single sample `7` delivered
to a zeroed buffer at cursor `0` gives the window `0, 7`, which is not the
batch `7`. -/
theorem window_of_short_batch_counterexample :
    (1 ≤ 1 ∧ 1 ≤ 2) ∧ ([7] : List Int).length = 1 ∧ (started 2 1).samples_wr_index = 0 ∧
    (ei_run_inference (fun _ => 0) 2 (ingest 2 (started 2 1) [7])).window = [0, 7] ∧
    (ei_run_inference (fun _ => 0) 2 (ingest 2 (started 2 1) [7])).window ≠ [7] := by
  decide

/-- C4 as amended: for `N ≤ C`, a batch `xs` of exactly `N` samples delivered in
one call at cursor `0`, followed by the extraction, gives a window of `C`
samples that consists of the old contents of the slots `N .. C - 1` followed by
`xs` in its original order; when `N = C` the window is `xs`. -/
theorem window_of_single_batch (run_classifier : List α → Int) (C N : Nat) (hNC : N ≤ C)
    (s : Core α) (hlen : s.samples_circ_buff.length = C) (hwr : s.samples_wr_index = 0)
    (xs : List α) (hxs : xs.length = N) :
    (ei_run_inference run_classifier C (ingest C s xs)).window
        = s.samples_circ_buff.drop N ++ xs ∧
    (ei_run_inference run_classifier C (ingest C s xs)).window.length = C ∧
    (N = C → (ei_run_inference run_classifier C (ingest C s xs)).window = xs) := by
  have hw1 : (ingest C s xs).samples_wr_index = N := by
    rw [ingest_wr_linear C s xs (by omega), hwr, hxs, Nat.zero_add]
  have hb1 : (ingest C s xs).samples_circ_buff = xs ++ s.samples_circ_buff.drop N := by
    rw [ingest_buff_linear C xs s (by omega) (by omega), hwr, hxs, List.take_zero,
      List.nil_append, Nat.zero_add]
  have hwin : (ei_run_inference run_classifier C (ingest C s xs)).window
      = s.samples_circ_buff.drop N ++ xs := by
    have h := roll_neg_cursor (ingest C s xs).samples_circ_buff C
      (ingest C s xs).samples_wr_index (by rw [ingest_buff_length, hlen]) (by omega)
    have e : (ei_run_inference run_classifier C (ingest C s xs)).window
        = (ingest C s xs).samples_circ_buff.rotate (ingest C s xs).samples_wr_index := h
    rw [e, hw1, hb1, ← hxs, List.rotate_append_length_eq]
  refine ⟨hwin, ?_, ?_⟩
  · rw [hwin, List.length_append, List.length_drop]; omega
  · intro hN
    rw [hwin, List.drop_of_length_le (by omega), List.nil_append]

/-- Witness for C4 as amended: `C = 4`, `N = 3`, the batch `0, 1, 2`. -/
theorem window_of_single_batch_witness :
    (3 ≤ 4) ∧
    ((ei_run_inference (fun _ => 0) 4 (ingest 4 (started 4 3) (labelled 3))).window
        = (started 4 3).samples_circ_buff.drop 3 ++ labelled 3 ∧
    (ei_run_inference (fun _ => 0) 4 (ingest 4 (started 4 3) (labelled 3))).window.length = 4 ∧
    (3 = 4 → (ei_run_inference (fun _ => 0) 4 (ingest 4 (started 4 3) (labelled 3))).window
        = labelled 3)) :=
  ⟨by decide, window_of_single_batch (fun _ => 0) 4 3 (by decide) (started 4 3) (by decide)
    (by decide) (labelled 3) (by decide)⟩

/-- C5 (a failed inference does not halt the loop): whatever status the
classifier gives, a pass of the loop that starts in the running state ends in
the sampling state, which is not the stop state; and `ei_run_inference`
returns false exactly when the status for the window is not zero. -/
theorem failed_inference_keeps_sampling (run_classifier : List α → Int) (C : Nat)
    (m : Machine α) (produced : List α) (hst : m.core.state = INFERENCE_STATE_RUNNING) :
    (ei_inference_sm_pass run_classifier C m produced).core.state = INFERENCE_STATE_SAMPLING ∧
    (ei_inference_sm_pass run_classifier C m produced).core.state ≠ INFERENCE_STATE_STOP ∧
    ((ei_run_inference run_classifier C m.core).ret = false
      ↔ run_classifier (ei_run_inference run_classifier C m.core).window ≠ 0) := by
  have e : (ei_inference_sm_pass run_classifier C m produced).core.state
      = INFERENCE_STATE_SAMPLING := by
    simp only [ei_inference_sm_pass, hst]
  refine ⟨e, ?_, ?_⟩
  · rw [e]; decide
  · unfold ei_run_inference
    dsimp only
    split_ifs with h
    · simp [h]
    · simp_all

/-- Witness for C5: a classifier that always fails with status `-3`, the loop
in the running state with cursor `2` of `4`. -/
theorem failed_inference_keeps_sampling_witness :
    (ei_inference_sm_pass (fun _ => -3) 4
        { core := { started 4 2 with samples_wr_index := 2,
                                     state := INFERENCE_STATE_RUNNING }, log := [] }
        []).core.state = INFERENCE_STATE_SAMPLING ∧
    (ei_run_inference (fun _ => -3) 4
        { started 4 2 with samples_wr_index := 2,
                           state := INFERENCE_STATE_RUNNING }).ret = false :=
  have h := failed_inference_keeps_sampling (fun _ : List Int => (-3 : Int)) 4
    { core := { started 4 2 with samples_wr_index := 2,
                                 state := INFERENCE_STATE_RUNNING }, log := [] } [] rfl
  ⟨h.1, h.2.2.mpr (by decide)⟩

/-- C7 (cursor position): with `C = 20`, after 20 writes from cursor `0` the
cursor is `20`, which is neither `20 mod 20 = 0` nor below `C`; after 25 writes
it is `4`, not `25 mod 20 = 5`. -/
theorem cursor_after_full_buffer :
    (ingest 20 (started 20 10) (labelled 20)).samples_wr_index = 20 ∧
    (ingest 20 (started 20 10) (labelled 25)).samples_wr_index = 4 ∧
    20 % 20 = 0 ∧ 25 % 20 = 5 := by
  decide

/-- C8 (in-bounds writes): with `C = 20`, a batch of 21 samples from cursor `0`
stores to the indices `0 .. 20`; the last store uses index `20 = C`, one past
the last slot of the array. -/
theorem store_past_the_end :
    (started 20 10).samples_wr_index < 20 ∧
    ei_samples_callback_stores 20 (started 20 10) (labelled 21) = List.range 21 ∧
    20 ∈ ei_samples_callback_stores 20 (started 20 10) (labelled 21) := by
  decide

/-- C9 (batching independence): one call of `ei_samples_callback` with
`xs ++ ys` returns the same value and leaves the same buffer, cursor, window
length and state as a call with `xs` followed by a call with `ys`; and a call
with `xs` leaves the same variables as one call for each sample of `xs`. -/
theorem batching_independence (C : Nat) (s : Core α) (xs ys : List α) :
    ei_samples_callback C s (xs ++ ys)
      = ei_samples_callback C (ei_samples_callback C s xs).2 ys ∧
    (ei_samples_callback C s xs).2 = ingest_all C s (xs.map fun x => [x]) := by
  constructor
  · have h := ingest_append C s xs ys
    unfold ingest at h
    unfold ei_samples_callback at h ⊢
    exact congrArg (Prod.mk false) h
  · have e : (xs.map fun x => [x]).flatten = xs := by
      induction xs with
      | nil => rfl
      | cons x xs ih => rw [List.map_cons, List.flatten_cons, ih]; rfl
    rw [ingest_all_eq_join, e]
    rfl

/-- C10 (initialization): for a raw sample count of `80000` with one value per
frame, `ei_start_impulse` sets the cursor to `0` and the window length to
`14464`, which is `80000` reduced modulo `2 ^ 16` and not the product `80000`. -/
theorem start_impulse_truncates (s : Core α) :
    (ei_start_impulse 80000 1 s).2.samples_wr_index = 0 ∧
    (ei_start_impulse 80000 1 s).2.samples_per_inference = 14464 ∧
    (ei_start_impulse 80000 1 s).2.samples_per_inference ≠ 80000 * 1 := by
  refine ⟨rfl, ?_, ?_⟩
  · show (80000 * 1) % 2 ^ 16 = 14464
    decide
  · show (80000 * 1) % 2 ^ 16 ≠ 80000 * 1
    decide

/-- C11 as stated fails: with `C = 2` and `N = 1`, after `ei_stop_impulse` the
state is the stop state, and a call of `ei_samples_callback` with the single
sample `7` changes it to data ready. -/
theorem stopped_state_counterexample :
    (ei_stop_impulse (started 2 1)).2.state = INFERENCE_STATE_STOP ∧
    (ei_samples_callback 2 (ei_stop_impulse (started 2 1)).2 [7]).2.state
      = INFERENCE_STATE_DATA_READY ∧
    (ei_samples_callback 2 (ei_stop_impulse (started 2 1)).2 [7]).2.state
      ≠ INFERENCE_STATE_STOP := by
  decide

/-- C11 as amended: once the state is the stop state (cursor in `0 .. C`),
`ei_start_impulse`, `ei_stop_impulse` and `ei_run_inference` leave it so and the
loop of `ei_inference_sm` makes no pass; `ei_samples_callback` leaves it so
exactly when no write of the batch leaves the cursor at or above
`samples_per_inference`, and otherwise sets it to data ready; entering
`ei_inference_sm` again sets it to sampling. -/
theorem stopped_state_kept (run_classifier : List α → Int)
    (C raw_sample_count raw_samples_per_frame : Nat) (s : Core α) (log : List sm_event)
    (bs : List (List α)) (xs : List α)
    (hst : s.state = INFERENCE_STATE_STOP) (hw : s.samples_wr_index ≤ C) :
    (ei_start_impulse raw_sample_count raw_samples_per_frame s).2.state
      = INFERENCE_STATE_STOP ∧
    (ei_stop_impulse s).2.state = INFERENCE_STATE_STOP ∧
    (ei_run_inference run_classifier C s).core.state = INFERENCE_STATE_STOP ∧
    ei_inference_sm_loop run_classifier C { core := s, log := log } bs
      = { core := s, log := log } ∧
    ((ei_samples_callback C s xs).2.state = INFERENCE_STATE_STOP ↔
      ∀ j, 1 ≤ j → j ≤ xs.length →
        (s.samples_wr_index + j) % (C + 1) < s.samples_per_inference) ∧
    ((ei_samples_callback C s xs).2.state = INFERENCE_STATE_STOP
      ∨ (ei_samples_callback C s xs).2.state = INFERENCE_STATE_DATA_READY) ∧
    (ei_inference_sm_enter raw_sample_count raw_samples_per_frame s).core.state
      = INFERENCE_STATE_SAMPLING := by
  refine ⟨hst, rfl, hst, ?_, ?_, ?_, rfl⟩
  · cases bs with
    | nil => rfl
    | cons b bs => rw [ei_inference_sm_loop, if_pos hst]
  · have h := ingest_state_kept_iff C xs s hw (by rw [hst]; decide)
    rw [hst] at h
    exact h
  · rcases ingest_state_cases C xs s with h | h
    · right; exact h
    · left; rw [← hst]; exact h

/-- Witness for C11 as amended: `C = 4`, `N = 3`, the stop state with cursor `0`
and a batch of two samples, which stays below the threshold. -/
theorem stopped_state_kept_witness :
    (ei_samples_callback 4 (ei_stop_impulse (started 4 3)).2 (labelled 2)).2.state
      = INFERENCE_STATE_STOP :=
  (stopped_state_kept (fun _ => 0) 4 3 1 (ei_stop_impulse (started 4 3)).2 [] []
    (labelled 2) rfl (by decide)).2.2.2.2.1.mpr (by decide)

/-- C12 (acquisition errors): when `ei_microphone_sample` is called while not
sampling, or the read returns a negative code, or gives size `0` or no buffer,
it returns false, does not call `ei_samples_callback`, and leaves the buffer,
the cursor and the state as they were. -/
theorem acquisition_error_skipped (AUDIO_FREQ C : Nat) (is_sampling : Bool)
    (rd : dmic_read_result) (s : Core Rat)
    (h : is_sampling = false ∨ rd.ret < 0 ∨ rd.size = 0 ∨ rd.buffer = none) :
    (ei_microphone_sample AUDIO_FREQ C is_sampling rd s).ret = false ∧
    (ei_microphone_sample AUDIO_FREQ C is_sampling rd s).forwarded = none ∧
    (ei_microphone_sample AUDIO_FREQ C is_sampling rd s).core = s := by
  unfold ei_microphone_sample
  rcases h with h | h | h | h
  · simp [h]
  · simp [h]
  · simp [h]
  · rw [h]
    split_ifs <;> simp

/-- Witness for C12: a read that would block, with code `-11` (`-EAGAIN`), while
sampling. -/
theorem acquisition_error_skipped_witness :
    (ei_microphone_sample 16000 20 true { ret := -11, buffer := none, size := 0 }
        (Core.initial 20 0)).ret = false ∧
    (ei_microphone_sample 16000 20 true { ret := -11, buffer := none, size := 0 }
        (Core.initial 20 0)).forwarded = none ∧
    (ei_microphone_sample 16000 20 true { ret := -11, buffer := none, size := 0 }
        (Core.initial 20 0)).core = Core.initial 20 0 :=
  acquisition_error_skipped 16000 20 true { ret := -11, buffer := none, size := 0 }
    (Core.initial 20 0) (Or.inr (Or.inl (by decide)))

/-- C13 (every sample is stored): for an array of `C` slots, a cursor `w` and a
batch `xs` of `n` samples with `w + n ≤ C`, after `ei_samples_callback` the
slots `w .. w + n - 1` hold `xs` in order, every other slot is as before, and
the cursor is `w + n`, whatever the window length `N` is. -/
theorem batch_stored_in_order (C : Nat) (s : Core α) (xs : List α)
    (hlen : s.samples_circ_buff.length = C)
    (hfit : s.samples_wr_index + xs.length ≤ C) :
    (ei_samples_callback C s xs).2.samples_circ_buff
      = s.samples_circ_buff.take s.samples_wr_index ++ xs
          ++ s.samples_circ_buff.drop (s.samples_wr_index + xs.length) ∧
    (∀ i, i < xs.length →
      (ei_samples_callback C s xs).2.samples_circ_buff[s.samples_wr_index + i]? = xs[i]?) ∧
    (∀ j, j < s.samples_wr_index ∨ s.samples_wr_index + xs.length ≤ j →
      (ei_samples_callback C s xs).2.samples_circ_buff[j]? = s.samples_circ_buff[j]?) ∧
    (ei_samples_callback C s xs).2.samples_wr_index = s.samples_wr_index + xs.length ∧
    (ei_samples_callback C s xs).2.samples_circ_buff.length = C := by
  have hb : (ei_samples_callback C s xs).2.samples_circ_buff
      = s.samples_circ_buff.take s.samples_wr_index ++ xs
          ++ s.samples_circ_buff.drop (s.samples_wr_index + xs.length) :=
    ingest_buff_linear C xs s hfit (by omega)
  have ht : (s.samples_circ_buff.take s.samples_wr_index).length = s.samples_wr_index := by
    rw [List.length_take]; omega
  refine ⟨hb, ?_, ?_, ingest_wr_linear C s xs hfit, ?_⟩
  · intro i hi
    rw [hb, List.append_assoc, List.getElem?_append_right (by omega), ht,
      show s.samples_wr_index + i - s.samples_wr_index = i by omega,
      List.getElem?_append_left hi]
  · intro j hj
    rw [hb]
    rcases hj with hj | hj
    · rw [List.append_assoc, List.getElem?_append_left (by omega),
        List.getElem?_take_of_lt hj]
    · rw [List.getElem?_append_right (by rw [List.length_append]; omega), List.length_append,
        ht, List.getElem?_drop]
      congr 1
      omega
  · exact (ingest_buff_length C xs s).trans hlen

/-- Witness for C13: `C = 6`, `N = 2`, cursor `1`, a batch of three samples; the
threshold is crossed at the first write of the batch. -/
theorem batch_stored_in_order_witness :
    (ei_samples_callback 6 { started 6 2 with samples_wr_index := 1 } [7, 8, 9]).2
      = { samples_per_inference := 2, samples_circ_buff := [0, 7, 8, 9, 0, 0],
          samples_wr_index := 4, state := INFERENCE_STATE_DATA_READY } ∧
    (ei_samples_callback 6 { started 6 2 with samples_wr_index := 1 }
        [7, 8, 9]).2.samples_wr_index = 1 + 3 :=
  ⟨by decide,
    (batch_stored_in_order 6 { started 6 2 with samples_wr_index := 1 } [7, 8, 9]
      (by decide) (by decide)).2.2.2.1⟩

/-- C14 (cursor reset on extraction): whatever the cursor and whatever the
classifier returns, after `ei_run_inference` the cursor is `0`, and the first
sample of the next batch is stored at index `0`, into slot `0` of the window. -/
theorem cursor_reset_on_extraction (run_classifier : List α → Int) (C : Nat) (s : Core α)
    (x : α) (xs : List α) :
    (ei_run_inference run_classifier C s).core.samples_wr_index = 0 ∧
    (ei_samples_callback_stores C (ei_run_inference run_classifier C s).core (x :: xs)).head?
      = some 0 ∧
    (ei_samples_callback C (ei_run_inference run_classifier C s).core [x]).2.samples_circ_buff
      = (ei_run_inference run_classifier C s).window.set 0 x := by
  refine ⟨rfl, rfl, ?_⟩
  have h : (ei_samples_callback C (ei_run_inference run_classifier C s).core [x]).2
      = step C (ei_run_inference run_classifier C s).core x := by
    have := ingest_cons C (ei_run_inference run_classifier C s).core x []
    rw [ingest_nil] at this
    exact this
  rw [h, step_buff]
  rfl

/-- C15 (the loop never stops): a pass of the loop that starts in a state other
than the stop state ends in a state other than the stop state, also when
`ei_samples_callback` is called with a further batch before or after the pass;
hence the loop entered through `ei_inference_sm` is never in the stop state
and makes a pass for every batch it is given, so it is never left. -/
theorem loop_never_stops (run_classifier : List α → Int) (C : Nat) (m : Machine α)
    (produced extra : List α) (h : m.core.state ≠ INFERENCE_STATE_STOP) :
    (ei_inference_sm_pass run_classifier C m produced).core.state ≠ INFERENCE_STATE_STOP ∧
    (ei_samples_callback C (ei_inference_sm_pass run_classifier C m produced).core extra).2.state
      ≠ INFERENCE_STATE_STOP ∧
    (ei_inference_sm_pass run_classifier C
        { m with core := (ei_samples_callback C m.core extra).2 } produced).core.state
      ≠ INFERENCE_STATE_STOP ∧
    (∀ (raw_sample_count raw_samples_per_frame : Nat) (s : Core α) (bs : List (List α)),
      (ei_inference_sm_loop run_classifier C
          (ei_inference_sm_enter raw_sample_count raw_samples_per_frame s) bs).core.state
        ≠ INFERENCE_STATE_STOP ∧
      (ei_inference_sm_loop run_classifier C
          (ei_inference_sm_enter raw_sample_count raw_samples_per_frame s) bs).log.length
        ≥ bs.length) := by
  have h1 := pass_state_ne_stop run_classifier C m produced h
  refine ⟨h1, ingest_state_ne_stop C _ extra h1, ?_, ?_⟩
  · exact pass_state_ne_stop run_classifier C _ produced (ingest_state_ne_stop C m.core extra h)
  · intro a b s bs
    have h2 := loop_state_ne_stop run_classifier C bs (ei_inference_sm_enter a b s)
      (by unfold ei_inference_sm_enter; simp)
    refine ⟨h2.1, ?_⟩
    have h3 := h2.2
    have h0 : (ei_inference_sm_enter a b s).log.length = 0 := rfl
    omega

/-- Witness for C15: `C = 4`, `N = 2`, the sampling state, a batch of three
samples in the pass and one more sample after it. -/
theorem loop_never_stops_witness :
    (ei_inference_sm_pass (fun _ => 1) 4 (ei_inference_sm_enter 2 1 (Core.initial 4 (0 : Int)))
        (labelled 3)).core.state ≠ INFERENCE_STATE_STOP :=
  (loop_never_stops (fun _ => 1) 4 (ei_inference_sm_enter 2 1 (Core.initial 4 (0 : Int)))
    (labelled 3) (labelled 1) (by decide)).1

/-- C16 (PCM conversion): when the microphone is sampling and the read succeeds
with a block of `size ≠ 0` bytes that holds at least `size / 2` samples, all of
them 16-bit values, and `BLOCK_SIZE` is computed without overflow of `int`, then
`ei_microphone_sample` returns true and calls `ei_samples_callback` once, with
byte count `4 * m` for `m = min (size / 2) (BLOCK_SIZE / 2)` and with exactly
`m` samples: the first `m` samples of the block in their order, the sample
`v` as the number `v / 32768`, which lies between `-1` and `1`. -/
theorem pcm_conversion (AUDIO_FREQ C : Nat) (rd : dmic_read_result) (samples : List Int)
    (s : Core Rat)
    (hfreq : AUDIO_FREQ * 100 * 2 < 2 ^ 31)
    (hret : 0 ≤ rd.ret) (hsize : rd.size ≠ 0) (hbuf : rd.buffer = some samples)
    (hlen : rd.size / 2 ≤ samples.length)
    (hrange : ∀ v ∈ samples, -32768 ≤ v ∧ v ≤ 32767) :
    (ei_microphone_sample AUDIO_FREQ C true rd s).ret = true ∧
    (ei_microphone_sample AUDIO_FREQ C true rd s).forwarded
      = some { raw_sample_size := 4 * min (rd.size / 2) ((AUDIO_FREQ * 100 * 2 / 1000) / 2),
               samples := (samples.take (min (rd.size / 2) ((AUDIO_FREQ * 100 * 2 / 1000) / 2))).map
                 fun (v : Int) => (v : Rat) / 32768 } ∧
    ((ei_microphone_sample AUDIO_FREQ C true rd s).forwarded.map
        fun call => call.samples.length)
      = some (min (rd.size / 2) ((AUDIO_FREQ * 100 * 2 / 1000) / 2)) ∧
    (∀ (i : Nat) (v : Int), i < min (rd.size / 2) ((AUDIO_FREQ * 100 * 2 / 1000) / 2) →
      samples[i]? = some v →
      ((ei_microphone_sample AUDIO_FREQ C true rd s).forwarded.map
          fun call => call.samples[i]?)
        = some (some ((v : Rat) / 32768)) ∧
      -1 ≤ (v : Rat) / 32768 ∧ (v : Rat) / 32768 ≤ 1) ∧
    (ei_microphone_sample AUDIO_FREQ C true rd s).core
      = (ei_samples_callback C s
          ((samples.take (min (rd.size / 2) ((AUDIO_FREQ * 100 * 2 / 1000) / 2))).map
            fun (v : Int) => (v : Rat) / 32768)).2 := by
  have hB : BLOCK_SIZE AUDIO_FREQ = AUDIO_FREQ * 100 * 2 / 1000 := rfl
  have hmin : (if rd.size / 2 < BLOCK_SIZE AUDIO_FREQ / 2 then rd.size / 2
      else BLOCK_SIZE AUDIO_FREQ / 2)
      = min (rd.size / 2) ((AUDIO_FREQ * 100 * 2 / 1000) / 2) := by
    rw [hB]
    split_ifs with hlt
    · exact (Nat.min_eq_left (by omega)).symm
    · exact (Nat.min_eq_right (by omega)).symm
  generalize hm : min (rd.size / 2) ((AUDIO_FREQ * 100 * 2 / 1000) / 2) = m at hmin ⊢
  have hm1 : m ≤ rd.size / 2 := by rw [← hm]; exact Nat.min_le_left _ _
  have hm2 : m ≤ (AUDIO_FREQ * 100 * 2 / 1000) / 2 := by rw [← hm]; exact Nat.min_le_right _ _
  have hconv : pcm_to_float = fun (v : Int) => (v : Rat) / 32768 := rfl
  have hmlen : ((samples.take m).map fun (v : Int) => (v : Rat) / 32768).length = m := by
    rw [List.length_map, List.length_take]; omega
  have hbytes : (m * 4) % 2 ^ 32 = 4 * m := by
    rw [Nat.mod_eq_of_lt (by omega)]; omega
  have hout : ei_microphone_sample AUDIO_FREQ C true rd s
      = { ret := true,
          forwarded := some { raw_sample_size := 4 * m,
                              samples := (samples.take m).map
                                fun (v : Int) => (v : Rat) / 32768 },
          core := (ei_samples_callback C s
            ((samples.take m).map fun (v : Int) => (v : Rat) / 32768)).2 } := by
    unfold ei_microphone_sample
    rw [hbuf]
    have hnr : ¬ rd.ret < 0 := by omega
    simp only [Bool.not_true, Bool.false_eq_true, if_false, hnr, hsize]
    rw [hmin, hbytes, show 4 * m / 4 = m by omega, hconv,
      List.take_of_length_le (by rw [hmlen])]
  refine ⟨by rw [hout], by rw [hout], ?_, ?_, by rw [hout]⟩
  · rw [hout]
    exact congrArg some hmlen
  · intro i v hi hv
    refine ⟨?_, ?_, ?_⟩
    · rw [hout]
      show some (((samples.take m).map fun (v : Int) => (v : Rat) / 32768)[i]?) = _
      rw [List.getElem?_map, List.getElem?_take_of_lt hi, hv]
      rfl
    · have hr := hrange v (List.getElem?_mem hv)
      have h1 : (-32768 : Rat) ≤ (v : Rat) := by exact_mod_cast hr.1
      rw [le_div_iff₀ (by norm_num)]; linarith
    · have hr := hrange v (List.getElem?_mem hv)
      have h2 : (v : Rat) ≤ 32767 := by exact_mod_cast hr.2
      rw [div_le_iff₀ (by norm_num)]; linarith

/-- Witness for C16: a frequency of `20`, so that `BLOCK_SIZE / 2 = 2`, and a
read of `6` bytes with the samples `16384, -32768, 32767`: the first two are
forwarded, in `8` bytes, as `1 / 2` and `-1`. -/
theorem pcm_conversion_witness :
    (ei_microphone_sample 20 20 true
        { ret := 0, buffer := some [16384, -32768, 32767], size := 6 }
        (Core.initial 20 0)).forwarded
      = some { raw_sample_size := 8, samples := [1 / 2, -1] } := by
  have h := (pcm_conversion 20 20 { ret := 0, buffer := some [16384, -32768, 32767], size := 6 }
    [16384, -32768, 32767] (Core.initial 20 0) (by decide) (by decide) (by decide) rfl
    (by decide) (by decide)).2.1
  rw [h]
  norm_num

/-- C17 (the value returned by the callback): `ei_samples_callback` returns false
for every input; for instance with `C = 20` and `N = 10` a batch of ten samples
sets the local flag and the state data ready, and false is returned. -/
theorem callback_returns_false (C : Nat) (s : Core α) (xs : List α) :
    (ei_samples_callback C s xs).1 = false ∧
    ((samples_loop 20 (started 20 10) (labelled 10)).1 = true ∧
      (ei_samples_callback 20 (started 20 10) (labelled 10)).2.state
        = INFERENCE_STATE_DATA_READY ∧
      (ei_samples_callback 20 (started 20 10) (labelled 10)).1 = false) := by
  refine ⟨rfl, ?_⟩
  decide

/-- C19 (the sampling flag): `ei_microphone_start` returns true and makes no
driver call when already sampling; otherwise it returns true exactly when
neither `dmic_configure` nor the start trigger gives a negative code, and the
flag afterwards is true in exactly that case.  `ei_microphone_stop` returns
true and makes no driver call when not sampling; otherwise it calls the stop
trigger and returns false exactly when that gives a negative code; after every
call of `ei_microphone_stop` the flag, which is what
`ei_microphone_is_sampling` returns, is false. -/
theorem sampling_flag_follows_driver (is_sampling : Bool) (configure_ret trigger_ret : Int) :
    ei_microphone_start true configure_ret trigger_ret
      = { ret := true, is_sampling := true, calls := [] } ∧
    ((ei_microphone_start false configure_ret trigger_ret).ret = true
      ↔ 0 ≤ configure_ret ∧ 0 ≤ trigger_ret) ∧
    ((ei_microphone_start false configure_ret trigger_ret).is_sampling = true
      ↔ 0 ≤ configure_ret ∧ 0 ≤ trigger_ret) ∧
    (ei_microphone_start false configure_ret trigger_ret).calls
      = (if configure_ret < 0 then [dmic_call.configure]
         else [dmic_call.configure, dmic_call.trigger_start]) ∧
    ei_microphone_stop false trigger_ret
      = { ret := true, is_sampling := false, calls := [] } ∧
    ((ei_microphone_stop true trigger_ret).ret = false ↔ trigger_ret < 0) ∧
    (ei_microphone_stop true trigger_ret).calls = [dmic_call.trigger_stop] ∧
    ei_microphone_is_sampling (ei_microphone_stop is_sampling trigger_ret).is_sampling
      = false := by
  refine ⟨rfl, ?_, ?_, ?_, rfl, ?_, ?_, ?_⟩
  · unfold ei_microphone_start
    split_ifs <;> simp_all
  · unfold ei_microphone_start
    split_ifs <;> simp_all
  · unfold ei_microphone_start
    split_ifs <;> simp_all
  · unfold ei_microphone_stop
    split_ifs <;> simp_all
  · unfold ei_microphone_stop
    split_ifs <;> simp_all
  · unfold ei_microphone_stop ei_microphone_is_sampling
    cases is_sampling
    · rfl
    · simp only [Bool.not_true, Bool.false_eq_true, if_false]
      split_ifs <;> rfl

end Inferencing
